import Mathlib

/-!
# Verification of the Sentry JavaScript SDK fragment

A shallow embedding, in Lean 4, of the four source files of this repository:

* `HTTPSTransport` (Node https transport: constructor, `sendEvent`, `sendSession`),
* the Next.js api-wrapping loader (`load`, `getOptions`, `makeWrappedRequestHandler`),
* the Next.js config helpers (`injectSentry`, `withSentryConfig`),
* the hub `Layer`/stack data model.

JavaScript values that matter to the verified properties are modelled with
explicit Lean datatypes; machine behavior such as `String.prototype.replace`
(first occurrence only) and the `in` operator on arrays is modelled faithfully.
Collaborators whose sources are outside this fragment (the base transport,
`eventToSentryRequest`, the hub implementation, `Sentry.captureException`,
`Sentry.flush`) are modelled from the specification, each marked as such in its
doc comment.
-/

namespace Sentry

/-! ## Transport data model (from `HTTPSTransport`, `src/unnamed/part_000`) -/

/-- Options handed to the transport constructor.  The source type
`TransportOptions` carries the DSN and proxy settings; only the fields the
transport reads are modelled. -/
structure TransportOptions where
  dsn : String
  httpsProxy : Option String := none
  httpProxy : Option String := none
deriving Repr, DecidableEq

/-- Modelled from the spec: `BaseTransport._getProxy(scheme)` resolves the
proxy configured for the given URL scheme from the proxy settings of the
transport options (the base transport source is not part of this fragment). -/
def getProxy (o : TransportOptions) (scheme : String) : Option String :=
  if scheme = "https" then o.httpsProxy else o.httpProxy

/-- The options record passed to `new https.Agent({...})` in the constructor. -/
structure AgentOptions where
  keepAlive : Bool
  maxSockets : Nat
  timeout : Nat
deriving Repr, DecidableEq

/-- The value stored in `this.client`: either a proxy agent built by
`https-proxy-agent` from the resolved proxy string, or a plain `https.Agent`
with explicit options. -/
inductive ClientAgent where
  | proxyAgent (proxy : String)
  | httpsAgent (opts : AgentOptions)
deriving Repr, DecidableEq

/-- The Node `https` module object assigned to `this.module`. -/
inductive HttpsModule where
  | https
deriving Repr, DecidableEq

/-- Modelled from the spec: the API configuration the base transport derives
from the DSN (`this._api`); the payload-construction collaborators consume it
opaquely, so only the DSN is carried. -/
structure API where
  dsn : String
deriving Repr, DecidableEq

/-- The mutable state of a constructed (or partially constructed) transport:
`this.options`, `this.module`, `this.client`, `this._api`.  `module` is
optional in the base class, which is why the send methods guard it. -/
structure TransportState where
  options : TransportOptions
  module : Option HttpsModule
  client : ClientAgent
  api : API
deriving Repr, DecidableEq

/-- An event payload; its serialized content is opaque to the transport. -/
structure Event where
  body : String
deriving Repr, DecidableEq

/-- A session payload; its serialized content is opaque to the transport. -/
structure Session where
  body : String
deriving Repr, DecidableEq

/-- A wire request: the `{url, body}` record produced by the
payload-construction collaborators. -/
structure SentryRequest where
  url : String
  body : String
deriving Repr, DecidableEq

/-- Modelled from the spec: the payload-construction collaborator
`eventToWireRequest(event, apiConfig) -> (url, body)` (imported as
`eventToSentryRequest` from the core package, outside this fragment). -/
def eventToSentryRequest (event : Event) (api : API) : SentryRequest :=
  { url := api.dsn, body := event.body }

/-- Modelled from the spec: the session equivalent of the payload-construction
collaborator (`sessionToSentryRequest` from the core package). -/
def sessionToSentryRequest (session : Session) (api : API) : SentryRequest :=
  { url := api.dsn, body := session.body }

/-- The item being delivered, as passed through to the base transport. -/
inductive SentryItem where
  | event (e : Event)
  | session (s : Session)
deriving Repr, DecidableEq

/-- The delivery started by `BaseTransport._sendWithModule`: which module it
uses, the exact wire request it sends, and the original item.  Modelled from
the spec: `_sendWithModule` (base transport, outside this fragment) issues the
network request and reports every failure through the returned outcome, never
by a synchronous throw, so it is modelled as a total function whose result
records its arguments. -/
structure WireDelivery where
  module : HttpsModule
  request : SentryRequest
  original : SentryItem
deriving Repr, DecidableEq

/-- Modelled from the spec: `BaseTransport._sendWithModule(module, request,
originalPayload)` - total, returns the delivery it starts. -/
def sendWithModule (m : HttpsModule) (req : SentryRequest) (item : SentryItem) :
    WireDelivery :=
  { module := m, request := req, original := item }

/-- The `SentryError` thrown by the send methods when no module is set. -/
structure SentryError where
  message : String
deriving Repr, DecidableEq

/-- The `HTTPSTransport` constructor: calls `super(options)` (which derives
`this._api` from the DSN), resolves a proxy for the https scheme, sets
`this.module = https`, and sets `this.client` to a proxy agent when a proxy
was resolved, otherwise to
`new https.Agent({ keepAlive: false, maxSockets: 30, timeout: 2000 })`. -/
def HTTPSTransport.construct (options : TransportOptions) : TransportState :=
  { options := options
    module := some HttpsModule.https
    client :=
      match getProxy options "https" with
      | some proxy => ClientAgent.proxyAgent proxy
      | none =>
          ClientAgent.httpsAgent { keepAlive := false, maxSockets := 30, timeout := 2000 }
    api := { dsn := options.dsn } }

/-- `HTTPSTransport.sendEvent`: throws `SentryError` when `this.module` is
unset, otherwise returns
`this._sendWithModule(this.module, eventToSentryRequest(event, this._api), event)`.
The synchronous throw is modelled as `Except.error`. -/
def sendEvent (t : TransportState) (event : Event) : Except SentryError WireDelivery :=
  match t.module with
  | none => Except.error { message := "No module available in HTTPSTransport" }
  | some m =>
      Except.ok (sendWithModule m (eventToSentryRequest event t.api) (SentryItem.event event))

/-- `HTTPSTransport.sendSession`: same shape as `sendEvent` with the session
collaborator (the source error message says `HTTPTransport`). -/
def sendSession (t : TransportState) (session : Session) : Except SentryError WireDelivery :=
  match t.module with
  | none => Except.error { message := "No module available in HTTPTransport" }
  | some m =>
      Except.ok (sendWithModule m (sessionToSentryRequest session t.api) (SentryItem.session session))

/-- Modelled from the spec: the default maximum queue size from the
configuration surface (default 30). -/
def defaultMaxQueueSize : Nat := 30

/-- Concrete options with no proxy configured, for witnesses. -/
def noProxyOpts : TransportOptions :=
  { dsn := "https://abc@o123.ingest.example.com/42" }

/-- Concrete options with an https proxy configured, for witnesses. -/
def withProxyOpts : TransportOptions :=
  { dsn := "https://abc@o123.ingest.example.com/42", httpsProxy := some "http://proxy.local:8080" }

/-- The claim of C1, stated in the words of the spec: the default
(non-proxy) agent the constructor builds uses keep-alive. -/
def defaultAgentUsesKeepAlive (opts : TransportOptions) : Prop :=
  ∀ a : AgentOptions,
    (HTTPSTransport.construct opts).client = ClientAgent.httpsAgent a → a.keepAlive = true

/-- The claim of C5, stated in the words of the spec: a missing network module
is raised at construction time, never deferred until a send is attempted, so no
send ever produces the missing-module error. -/
def missingModuleNeverRaisedAtSend : Prop :=
  ∀ (t : TransportState) (e : Event),
    sendEvent t e ≠ Except.error { message := "No module available in HTTPSTransport" }

/-- A transport state whose `module` field is unset, as the base class type
allows (`public module?: HTTPModule`). -/
def moduleLessState : TransportState :=
  { options := noProxyOpts
    module := none
    client := ClientAgent.httpsAgent { keepAlive := false, maxSockets := 30, timeout := 2000 }
    api := { dsn := noProxyOpts.dsn } }

/-- A concrete event payload, for witnesses. -/
def sampleEvent : Event := { body := "payload" }

/-- A concrete session payload, for witnesses. -/
def sampleSession : Session := { body := "sess" }

/-! ## JavaScript string primitives

`String.prototype.replace` with a string pattern replaces only the first
occurrence; these helpers model that over character lists so that every
definition evaluates by kernel reduction. -/

/-- `startsWithChars s pat` is true when `pat` is an initial segment of `s`. -/
def startsWithChars : List Char → List Char → Bool
  | _, [] => true
  | [], _ :: _ => false
  | c :: cs, p :: ps => c = p && startsWithChars cs ps

/-- First occurrence of `pat` inside a character list: `some (before, after)`
with the list equal to `before ++ pat ++ after`, or `none` when absent. -/
def findSplit (pat : List Char) : List Char → Option (List Char × List Char)
  | [] => if pat.isEmpty then some ([], []) else none
  | c :: cs =>
      if startsWithChars (c :: cs) pat then some ([], (c :: cs).drop pat.length)
      else
        match findSplit pat cs with
        | some (b, a) => some (c :: b, a)
        | none => none

/-- JavaScript `s.replace(pat, rep)` with a string pattern: replaces the first
occurrence only; returns `s` unchanged when `pat` does not occur. -/
def replaceFirst (s pat rep : String) : String :=
  match findSplit pat.data s.data with
  | none => s
  | some (b, a) => String.mk (b ++ rep.data ++ a)

/-- JavaScript `s.includes(pat)`. -/
def hasSubstr (s pat : String) : Bool := (findSplit pat.data s.data).isSome

/-! ## The api-wrapping loader (`load`, `getOptions`, `makeWrappedRequestHandler`) -/

/-- Loader options: the absolute path of the SDK, passed through the config. -/
structure LoaderOptions where
  sdkPath : String
deriving Repr, DecidableEq

/-- One entry of `this.loaders`. -/
structure Loader where
  options : LoaderOptions
  path : String
deriving Repr, DecidableEq

/-- The loader context `this`: the resource being loaded and the loader list. -/
structure LoaderContext where
  resource : String
  loaders : List Loader
deriving Repr, DecidableEq

/-- `getOptions`: the options of the first loader whose path contains
`nextjs/dist/utils/api-wrapping-loader`; `undefined` (here `none`) otherwise. -/
def getOptions : List Loader → Option LoaderOptions
  | [] => none
  | loader :: rest =>
      if hasSubstr loader.path "nextjs/dist/utils/api-wrapping-loader" then some loader.options
      else getOptions rest

/-- The default export of the compiled route module: a function (carrying its
source text, as produced by `Function.prototype.toString`) or anything else. -/
inductive ModuleExport where
  | fn (src : String)
  | nonFunction
deriving Repr, DecidableEq

/-- The source text of the wrapped handler substituted into the route code:
`makeWrappedRequestHandler(origHandler).toString()`, a fixed string because the
wrapper closes over `origHandler` by name. -/
def wrappedHandlerSource : String :=
  "async (req, res) => \x7b try \x7b return await origHandler(req, res); \x7d catch (err) \x7b Sentry.captureException(err); await Sentry.flush(2000); throw err; \x7d \x7d"

/-- The loader entry point `load(rawInput)`.  Compilation of the stringified
code into a module object (`new Module(...)._compile`, a Node internal) is
passed in as `compile`, mapping source text to its default export.  The result
pairs the returned code with the console warnings emitted; reading `sdkPath`
off an `undefined` options object is a thrown `TypeError`, modelled as
`Except.error`. -/
def load (compile : String → ModuleExport) (ctx : LoaderContext) (rawInput : String) :
    Except String (String × List String) :=
  match getOptions ctx.loaders with
  | none => Except.error "TypeError: Cannot read property sdkPath of undefined"
  | some options =>
      let origCode := replaceFirst rawInput "@sentry/nextjs" options.sdkPath
      match compile origCode with
      | ModuleExport.nonFunction =>
          Except.ok (rawInput,
            ["[Sentry] Could not wrap " ++ ctx.resource ++
              " for error handling. Default export is not a function."])
      | ModuleExport.fn src =>
          let newCode := replaceFirst origCode src wrappedHandlerSource
          Except.ok (newCode ++ "\n\nconst origHandler = " ++ src, [])

/-- A Next.js API request (opaque to the wrapper). -/
structure NextApiRequest where
  url : String
deriving Repr, DecidableEq

/-- A Next.js API response (opaque to the wrapper). -/
structure NextApiResponse where
  statusCode : Nat
deriving Repr, DecidableEq

/-- A JavaScript exception value thrown by a route handler. -/
structure JsError where
  message : String
deriving Repr, DecidableEq

/-- A route handler: resolves to unit or rejects with an error. -/
def RequestHandler : Type := NextApiRequest → NextApiResponse → Except JsError Unit

/-- The telemetry calls the wrapper makes on the error path. -/
inductive TelemetryCall where
  | captureException (err : JsError)
  | flush (timeout : Nat)
deriving Repr, DecidableEq

/-- `makeWrappedRequestHandler`: awaits the original handler inside
`try/catch`; on a throw it calls `Sentry.captureException(err)`, awaits
`Sentry.flush(2000)`, and rethrows `err`.  Modelled from the spec:
`Sentry.captureException` and `Sentry.flush` (from `index.server`, outside
this fragment) never raise to the caller, so they are recorded as telemetry
calls rather than possible exception sources. -/
def makeWrappedRequestHandler (origHandler : RequestHandler) :
    NextApiRequest → NextApiResponse → Except JsError Unit × List TelemetryCall :=
  fun req res =>
    match origHandler req res with
    | Except.ok u => (Except.ok u, [])
    | Except.error err =>
        (Except.error err, [TelemetryCall.captureException err, TelemetryCall.flush 2000])

/-! ## The Next.js config helpers (`injectSentry`, `withSentryConfig`) -/

/-- The `import` field of an entry point object: a string or array of strings. -/
inductive ImportVal where
  | str (s : String)
  | arr (xs : List String)
deriving Repr, DecidableEq

/-- One value of the webpack `entry` object: a single entry point, an array of
entry points, or an object whose `import` lists them alongside other
configuration fields (kept as an opaque key/value list, spread-preserved). -/
inductive EntryPointValue where
  | str (s : String)
  | arr (xs : List String)
  | obj (imp : ImportVal) (rest : List (String × String))
deriving Repr, DecidableEq

/-- The object form of the webpack `entry` property. -/
abbrev EntryPropertyObject : Type := List (String × EntryPointValue)

/-- The `entry` property: an object, or a function returning a promise of one
(the function case carries the object its promise resolves to). -/
inductive EntryProperty where
  | fn (resolved : EntryPropertyObject)
  | obj (o : EntryPropertyObject)
deriving Repr, DecidableEq

/-- Property read on a JavaScript object modelled as a key/value list. -/
def jsGet {α : Type} : List (String × α) → String → Option α
  | [], _ => none
  | p :: rest, k => if p.1 = k then some p.2 else jsGet rest k

/-- The `in` operator on a JavaScript object: own-property test. -/
def jsHas {α : Type} (o : List (String × α)) (k : String) : Bool :=
  o.any fun p => p.1 == k

/-- Property write on a JavaScript object: overwrites an existing key in
place, otherwise appends a fresh one. -/
def jsSet {α : Type} (o : List (String × α)) (k : String) (v : α) : List (String × α) :=
  if o.any fun p => p.1 == k then o.map fun p => if p.1 = k then (k, v) else p
  else o ++ [(k, v)]

/-- The `delete` operator on a JavaScript object. -/
def jsDelete {α : Type} (o : List (String × α)) (k : String) : List (String × α) :=
  o.filter fun p => !(p.1 == k)

/-- The tail of `injectSentry`: `newEntryProperty[injectionPoint] = injectedInto`
followed by `if ('main.js' in newEntryProperty) delete newEntryProperty['main.js']`
and the return. -/
def assignAndStripMainJs (o : EntryPropertyObject) (ip : String) (v : EntryPointValue) :
    EntryPropertyObject :=
  let updated := jsSet o ip v
  if jsHas updated "main.js" then jsDelete updated "main.js" else updated

/-- The key injected into: `'pages/_document'` on the server, `'main'` otherwise. -/
def injectionPoint (isServer : Bool) : String :=
  if isServer then "pages/_document" else "main"

/-- The file injected: the server or client sentry config file. -/
def injectee (isServer : Bool) : String :=
  if isServer then "./sentry.server.config.js" else "./sentry.client.config.js"

/-- Awaiting the entry property: calls it when it is a function (nextjs's
default), then treats the result as the object form. -/
def resolveEntry : EntryProperty → EntryPropertyObject
  | EntryProperty.fn resolved => resolved
  | EntryProperty.obj o => o

/-- The conditional chain computing the new value for the injection point:
`[injectee, s]` for a string, `[injectee, ...xs]` for an array, and for an
object the spread with `import` replaced by one of those two arrays. -/
def injectedValue (inj : String) : EntryPointValue → EntryPointValue
  | EntryPointValue.str s => EntryPointValue.arr [inj, s]
  | EntryPointValue.arr xs => EntryPointValue.arr (inj :: xs)
  | EntryPointValue.obj (ImportVal.str s) rest =>
      EntryPointValue.obj (ImportVal.arr [inj, s]) rest
  | EntryPointValue.obj (ImportVal.arr xs) rest =>
      EntryPointValue.obj (ImportVal.arr (inj :: xs)) rest

/-- `injectSentry(origEntryProperty, isServer)`: awaits the function form,
reads the value at the injection point, prepends the sentry config file to it
(string, array, and object/`import` shapes), writes it back, and strips any
`main.js` key.  Reading `.import` off `undefined` (injection point absent and
the value neither string nor array) is a thrown `TypeError`. -/
def injectSentry (origEntryProperty : EntryProperty) (isServer : Bool) :
    Except String EntryPropertyObject :=
  let newEntryProperty := resolveEntry origEntryProperty
  let ip := injectionPoint isServer
  let inj := injectee isServer
  match jsGet newEntryProperty ip with
  | none => Except.error "TypeError: Cannot read property import of undefined"
  | some injectedInto => Except.ok (assignAndStripMainJs newEntryProperty ip (injectedValue inj injectedInto))

/-- The ordered list of entry points named by an entry value. -/
def entryPoints : EntryPointValue → List String
  | EntryPointValue.str s => [s]
  | EntryPointValue.arr xs => xs
  | EntryPointValue.obj (ImportVal.str s) _ => [s]
  | EntryPointValue.obj (ImportVal.arr xs) _ => xs

/-- The extra configuration fields of an entry value (object shape only). -/
def restOf : EntryPointValue → Option (List (String × String))
  | EntryPointValue.obj _ rest => some rest
  | _ => none

/-- A concrete entry property, for the C8 witness. -/
def sampleEntry : EntryProperty :=
  EntryProperty.obj
    [("main", EntryPointValue.str "./index.js"),
     ("polyfills", EntryPointValue.arr ["./poly.js"]),
     ("main.js", EntryPointValue.str "./old.js")]

/-- The keys of `defaultWebpackPluginOptions` in `withSentryConfig`. -/
def defaultWebpackPluginOptionKeys : List String :=
  ["release", "url", "org", "project", "authToken", "configFile",
   "stripPrefix", "urlPrefix", "include", "ignore"]

/-- The `in` operator applied to a JavaScript array of strings: true for an
index below its length and for `length` (inherited `Array.prototype` members
are omitted; no plugin option key names one, and the verified property does
not depend on the individual booleans). -/
def jsInArray (key : String) (arr : List String) : Bool :=
  ((List.range arr.length).map fun i => toString i).contains key || key == "length"

/-- The override list computed by `withSentryConfig`:
`Object.keys(defaultWebpackPluginOptions).concat('dryrun').map(key => key in Object.keys(providedWebpackPluginOptions))`
- a list of booleans, one per default key, because `in` is applied to the
provided-keys array rather than the options object. -/
def webpackPluginOptionOverrides (providedKeys : List String) : List Bool :=
  (defaultWebpackPluginOptionKeys ++ ["dryrun"]).map fun key => jsInArray key providedKeys

/-- The guard of the override warning: `webpackPluginOptionOverrides.length > 0`. -/
def withSentryConfigWarnsOverride (providedKeys : List String) : Bool :=
  decide ((webpackPluginOptionOverrides providedKeys).length > 0)

/-! ## The hub layer stack

Modelled from the spec: the hub implementation (push/pop/bind and the scope
mutators) is not part of this fragment - only the `Layer` interface is - so
the operations follow the specified contract: a fresh stack seeds one layer
carrying an empty scope; `pushScope` clones the current top scope (or creates
an empty one) into a new layer sharing the current client; `popScope` removes
the top layer only when more than one remains; `bindClient` replaces only the
top layer's client; the scope mutators update the top scope in place.  The
stack is listed top-first. -/

/-- A client reference held by a layer (opaque). -/
structure Client where
  id : Nat
deriving Repr, DecidableEq

/-- A user record on a scope (opaque). -/
structure User where
  name : String
deriving Repr, DecidableEq

/-- A breadcrumb record on a scope (opaque). -/
structure Breadcrumb where
  message : String
deriving Repr, DecidableEq

/-- Scope data: tags, extra data, user, breadcrumbs. -/
structure Scope where
  tags : List (String × String)
  extra : List (String × String)
  user : Option User
  breadcrumbs : List Breadcrumb
deriving Repr, DecidableEq

/-- The empty scope seeded into a fresh stack. -/
def Scope.empty : Scope :=
  { tags := [], extra := [], user := none, breadcrumbs := [] }

/-- Cloning a scope copies its data (spec: cheap, by-value for tags/extra/user). -/
def Scope.clone (s : Scope) : Scope :=
  { tags := s.tags, extra := s.extra, user := s.user, breadcrumbs := s.breadcrumbs }

/-- One layer of the hub stack: the source interface declares both fields
optional (`client?: Client; scope?: Scope`). -/
structure Layer where
  client : Option Client := none
  scope : Option Scope := none
deriving Repr, DecidableEq

/-- A fresh stack: one layer holding the given client and an empty scope. -/
def initialStack (client : Option Client) : List Layer :=
  [{ client := client, scope := some Scope.empty }]

/-- The hub operations acting on the layer stack. -/
inductive HubOp where
  | pushScope
  | popScope
  | bindClient (c : Client)
  | setTag (k v : String)
  | setExtra (k v : String)
  | setUser (u : Option User)
  | addBreadcrumb (b : Breadcrumb) (maxBreadcrumbs : Nat)
deriving Repr, DecidableEq

/-- Apply a scope mutator to the top layer's scope, when both exist. -/
def mutateTopScope (stack : List Layer) (f : Scope → Scope) : List Layer :=
  match stack with
  | [] => []
  | l :: rest => { l with scope := l.scope.map f } :: rest

/-- One step of the hub: the specified behavior of each operation. -/
def applyOp (stack : List Layer) (op : HubOp) : List Layer :=
  match op with
  | HubOp.pushScope =>
      match stack with
      | [] => [{ client := none, scope := some Scope.empty }]
      | top :: rest =>
          { client := top.client,
            scope := some (match top.scope with
              | some s => s.clone
              | none => Scope.empty) } :: top :: rest
  | HubOp.popScope =>
      match stack with
      | _ :: next :: rest => next :: rest
      | _ => stack
  | HubOp.bindClient c =>
      match stack with
      | [] => []
      | top :: rest => { top with client := some c } :: rest
  | HubOp.setTag k v =>
      mutateTopScope stack fun s => { s with tags := s.tags ++ [(k, v)] }
  | HubOp.setExtra k v =>
      mutateTopScope stack fun s => { s with extra := s.extra ++ [(k, v)] }
  | HubOp.setUser u =>
      mutateTopScope stack fun s => { s with user := u }
  | HubOp.addBreadcrumb b maxBreadcrumbs =>
      mutateTopScope stack fun s =>
        { s with breadcrumbs :=
            (s.breadcrumbs ++ [b]).drop ((s.breadcrumbs.length + 1) - maxBreadcrumbs) }

/-- A concrete loader context, for the C10 witness. -/
def sampleLoaderCtx : LoaderContext :=
  { resource := "pages/api/hello.js"
    loaders := [{ path := "nextjs/dist/utils/api-wrapping-loader"
                  options := { sdkPath := "/app/node_modules/@sentry/nextjs" } }] }

/-! ## Helper lemmas: JavaScript object operations -/

theorem jsGet_cons {α : Type} (p : String × α) (rest : List (String × α)) (k : String) :
    jsGet (p :: rest) k = if p.1 = k then some p.2 else jsGet rest k := rfl

theorem jsHas_cons {α : Type} (p : String × α) (rest : List (String × α)) (k : String) :
    jsHas (p :: rest) k = ((p.1 == k) || jsHas rest k) := rfl

theorem jsHas_eq_false_iff {α : Type} (o : List (String × α)) (k : String) :
    jsHas o k = false ↔ jsGet o k = none := by
  induction o with
  | nil => simp [jsHas, jsGet]
  | cons p rest ih =>
      rw [jsHas_cons, jsGet_cons]
      by_cases hp : p.1 = k
      · have hb : (p.1 == k) = true := by simp [hp]
        simp [hb, hp]
      · have hb : (p.1 == k) = false := by simp [hp]
        rw [hb, Bool.false_or, if_neg hp]
        exact ih

theorem jsGet_map_set_self {α : Type} (k : String) (v : α) :
    ∀ o : List (String × α), (o.any fun p => p.1 == k) = true →
      jsGet (o.map fun p => if p.1 = k then (k, v) else p) k = some v := by
  intro o
  induction o with
  | nil => intro h; simp at h
  | cons p rest ih =>
      intro h
      rw [List.map_cons]
      by_cases hp : p.1 = k
      · rw [if_pos hp, jsGet_cons, if_pos rfl]
      · rw [if_neg hp, jsGet_cons, if_neg hp]
        apply ih
        have hb : (p.1 == k) = false := by simp [hp]
        rwa [List.any_cons, hb, Bool.false_or] at h

theorem jsGet_map_set_ne {α : Type} (k k' : String) (v : α) (hne : k' ≠ k) :
    ∀ o : List (String × α),
      jsGet (o.map fun p => if p.1 = k then (k, v) else p) k' = jsGet o k' := by
  intro o
  induction o with
  | nil => rfl
  | cons p rest ih =>
      rw [List.map_cons]
      by_cases hp : p.1 = k
      · have h1 : ¬((k, v).1 = k') := fun hc => hne hc.symm
        have h2 : ¬(p.1 = k') := by rw [hp]; exact fun hc => hne hc.symm
        rw [if_pos hp, jsGet_cons, if_neg h1, jsGet_cons, if_neg h2, ih]
      · rw [if_neg hp, jsGet_cons, jsGet_cons, ih]

theorem jsGet_append_last {α : Type} (k : String) (v : α) :
    ∀ o : List (String × α), jsGet o k = none → jsGet (o ++ [(k, v)]) k = some v := by
  intro o
  induction o with
  | nil => intro _; rw [List.nil_append, jsGet_cons, if_pos rfl]
  | cons p rest ih =>
      intro h
      rw [jsGet_cons] at h
      by_cases hp : p.1 = k
      · rw [if_pos hp] at h; exact absurd h (by simp)
      · rw [if_neg hp] at h
        rw [List.cons_append, jsGet_cons, if_neg hp]
        exact ih h

theorem jsGet_append_last_ne {α : Type} (k k' : String) (v : α) (hne : k' ≠ k) :
    ∀ o : List (String × α), jsGet (o ++ [(k, v)]) k' = jsGet o k' := by
  intro o
  induction o with
  | nil =>
      rw [List.nil_append, jsGet_cons, if_neg (fun hc : (k, v).1 = k' => hne hc.symm)]
  | cons p rest ih => rw [List.cons_append, jsGet_cons, jsGet_cons, ih]

theorem jsGet_jsSet_self {α : Type} (o : List (String × α)) (k : String) (v : α) :
    jsGet (jsSet o k v) k = some v := by
  unfold jsSet
  by_cases h : (o.any fun p => p.1 == k) = true
  · rw [if_pos h]; exact jsGet_map_set_self k v o h
  · rw [if_neg h]
    apply jsGet_append_last
    exact (jsHas_eq_false_iff o k).mp (Bool.eq_false_iff.mpr h)

theorem jsGet_jsSet_ne {α : Type} (o : List (String × α)) (k k' : String) (v : α)
    (hne : k' ≠ k) : jsGet (jsSet o k v) k' = jsGet o k' := by
  unfold jsSet
  by_cases h : (o.any fun p => p.1 == k) = true
  · rw [if_pos h]; exact jsGet_map_set_ne k k' v hne o
  · rw [if_neg h]; exact jsGet_append_last_ne k k' v hne o

theorem jsGet_jsDelete_self {α : Type} (o : List (String × α)) (k : String) :
    jsGet (jsDelete o k) k = none := by
  induction o with
  | nil => rfl
  | cons p rest ih =>
      simp only [jsDelete] at ih ⊢
      rw [List.filter_cons]
      by_cases hp : p.1 = k
      · rw [if_neg (by simp [hp])]; exact ih
      · rw [if_pos (by simp [hp]), jsGet_cons, if_neg hp]; exact ih

theorem jsGet_jsDelete_ne {α : Type} (o : List (String × α)) (k k' : String)
    (hne : k' ≠ k) : jsGet (jsDelete o k) k' = jsGet o k' := by
  induction o with
  | nil => rfl
  | cons p rest ih =>
      simp only [jsDelete] at ih ⊢
      rw [List.filter_cons]
      by_cases hp : p.1 = k
      · rw [if_neg (by simp [hp]), jsGet_cons,
          if_neg (show ¬(p.1 = k') by rw [hp]; exact fun hc => hne hc.symm)]
        exact ih
      · rw [if_pos (by simp [hp]), jsGet_cons, jsGet_cons, ih]

theorem assignStrip_get_ip (o : EntryPropertyObject) (ip : String) (v : EntryPointValue)
    (hip : ip ≠ "main.js") :
    jsGet (assignAndStripMainJs o ip v) ip = some v := by
  unfold assignAndStripMainJs
  by_cases h : jsHas (jsSet o ip v) "main.js" = true
  · simp only [h, if_true]
    rw [jsGet_jsDelete_ne _ _ _ hip]
    exact jsGet_jsSet_self o ip v
  · simp only [h]
    simp only [Bool.not_eq_true] at h
    simp only [h, Bool.false_eq_true, if_false]
    exact jsGet_jsSet_self o ip v

theorem assignStrip_get_other (o : EntryPropertyObject) (ip : String) (v : EntryPointValue)
    (k : String) (hk1 : k ≠ ip) (hk2 : k ≠ "main.js") :
    jsGet (assignAndStripMainJs o ip v) k = jsGet o k := by
  unfold assignAndStripMainJs
  by_cases h : jsHas (jsSet o ip v) "main.js" = true
  · simp only [h, if_true]
    rw [jsGet_jsDelete_ne _ _ _ hk2]
    exact jsGet_jsSet_ne o ip k v hk1
  · simp only [Bool.not_eq_true] at h
    simp only [h, Bool.false_eq_true, if_false]
    exact jsGet_jsSet_ne o ip k v hk1

theorem assignStrip_mainjs_removed (o : EntryPropertyObject) (ip : String)
    (v : EntryPointValue) :
    jsGet (assignAndStripMainJs o ip v) "main.js" = none := by
  unfold assignAndStripMainJs
  by_cases h : jsHas (jsSet o ip v) "main.js" = true
  · simp only [h, if_true]
    exact jsGet_jsDelete_self _ _
  · simp only [Bool.not_eq_true] at h
    simp only [h, Bool.false_eq_true, if_false]
    exact (jsHas_eq_false_iff _ _).mp h

theorem injectionPoint_ne_mainjs (isServer : Bool) : injectionPoint isServer ≠ "main.js" := by
  cases isServer <;> decide

theorem injectSentry_eq (ep : EntryProperty) (isServer : Bool) (v : EntryPointValue)
    (h : jsGet (resolveEntry ep) (injectionPoint isServer) = some v) :
    injectSentry ep isServer =
      Except.ok (assignAndStripMainJs (resolveEntry ep) (injectionPoint isServer)
        (injectedValue (injectee isServer) v)) := by
  simp [injectSentry, h]

theorem entryPoints_injectedValue (inj : String) (v : EntryPointValue) :
    entryPoints (injectedValue inj v) = inj :: entryPoints v := by
  cases v with
  | str s => rfl
  | arr xs => rfl
  | obj imp rest => cases imp <;> rfl

theorem restOf_injectedValue (inj : String) (v : EntryPointValue) :
    restOf (injectedValue inj v) = restOf v := by
  cases v with
  | str s => rfl
  | arr xs => rfl
  | obj imp rest => cases imp <;> rfl

/-! ## Helper lemmas: the hub stack invariant -/

theorem mutateTopScope_preserves (stack : List Layer) (f : Scope → Scope)
    (h : ∀ l ∈ stack, l.scope.isSome = true) :
    ∀ l ∈ mutateTopScope stack f, l.scope.isSome = true := by
  cases stack with
  | nil => exact h
  | cons top rest =>
      intro l hl
      simp only [mutateTopScope, List.mem_cons] at hl
      rcases hl with hl | hl
      · have := h top (List.mem_cons_self top rest)
        subst hl
        simpa [Option.isSome_map] using this
      · exact h l (List.mem_cons_of_mem top hl)

theorem applyOp_preserves_scope (stack : List Layer) (op : HubOp)
    (h : ∀ l ∈ stack, l.scope.isSome = true) :
    ∀ l ∈ applyOp stack op, l.scope.isSome = true := by
  cases op with
  | pushScope =>
      cases stack with
      | nil => intro l hl; simp only [applyOp, List.mem_singleton] at hl; simp [hl]
      | cons top rest =>
          intro l hl
          simp only [applyOp, List.mem_cons] at hl
          rcases hl with hl | hl
          · simp [hl]
          · exact h l (by simpa using hl)
  | popScope =>
      cases stack with
      | nil => exact h
      | cons top rest =>
          cases rest with
          | nil => exact h
          | cons next rest' =>
              intro l hl
              exact h l (List.mem_cons_of_mem top hl)
  | bindClient c =>
      cases stack with
      | nil => intro l hl; simp [applyOp] at hl
      | cons top rest =>
          intro l hl
          simp only [applyOp, List.mem_cons] at hl
          rcases hl with hl | hl
          · have := h top (List.mem_cons_self top rest)
            simp [hl]
            simpa using this
          · exact h l (List.mem_cons_of_mem top hl)
  | setTag k v => exact mutateTopScope_preserves stack _ h
  | setExtra k v => exact mutateTopScope_preserves stack _ h
  | setUser u => exact mutateTopScope_preserves stack _ h
  | addBreadcrumb b maxB => exact mutateTopScope_preserves stack _ h

theorem foldl_applyOp_preserves (ops : List HubOp) (stack : List Layer)
    (h : ∀ l ∈ stack, l.scope.isSome = true) :
    ∀ l ∈ ops.foldl applyOp stack, l.scope.isSome = true := by
  induction ops generalizing stack with
  | nil => exact h
  | cons op rest ih => exact ih (applyOp stack op) (applyOp_preserves_scope stack op h)

/-! ## Claim theorems -/

/-- C1: the claim states that the default agent the HTTPS transport constructs
uses keep-alive.  It does not: the constructor passes `keepAlive: false` to
`https.Agent`, so on options resolving no proxy the constructed agent has
keep-alive disabled. -/
theorem C1_counterexample : ¬ defaultAgentUsesKeepAlive noProxyOpts := by
  intro h
  exact absurd (h { keepAlive := false, maxSockets := 30, timeout := 2000 } (by decide))
    (by decide)

/-- C1 (amended): when no proxy is resolved for the https scheme, the default
agent the HTTPS transport constructs has keep-alive disabled
(`keepAlive: false`), with concurrent sockets bounded at 30 and a 2000 ms
timeout. -/
theorem C1_default_agent_config (opts : TransportOptions)
    (h : getProxy opts "https" = none) :
    (HTTPSTransport.construct opts).client =
      ClientAgent.httpsAgent { keepAlive := false, maxSockets := 30, timeout := 2000 } := by
  simp [HTTPSTransport.construct, h]

/-- C1 (amended) witnessed on concrete proxyless options. -/
theorem C1_default_agent_config_witness :
    getProxy noProxyOpts "https" = none ∧
    (HTTPSTransport.construct noProxyOpts).client =
      ClientAgent.httpsAgent { keepAlive := false, maxSockets := 30, timeout := 2000 } :=
  ⟨by decide, C1_default_agent_config noProxyOpts (by decide)⟩

/-- C2: every constructed HTTPSTransport has `this.module` assigned to the
https module, so `sendEvent` and `sendSession` never take the synchronous
`No module available` throw branch: on every event and session they return an
outcome. -/
theorem C2_send_never_throws (opts : TransportOptions) (e : Event) (s : Session) :
    (HTTPSTransport.construct opts).module = some HttpsModule.https ∧
    (∃ d, sendEvent (HTTPSTransport.construct opts) e = Except.ok d) ∧
    (∃ d, sendSession (HTTPSTransport.construct opts) s = Except.ok d) :=
  ⟨rfl, ⟨_, rfl⟩, ⟨_, rfl⟩⟩

/-- C3: the constructor configures the client from the options: a proxy
resolved for the https scheme yields a proxy agent for that proxy; otherwise
an https agent bounding concurrent sockets at 30 (the default max queue size)
with a 2000 ms timeout, within the specified ~2s-5s network timeout default. -/
theorem C3_agent_configuration (opts : TransportOptions) (p : String) :
    (getProxy opts "https" = some p →
      (HTTPSTransport.construct opts).client = ClientAgent.proxyAgent p) ∧
    (getProxy opts "https" = none →
      ∃ a : AgentOptions,
        (HTTPSTransport.construct opts).client = ClientAgent.httpsAgent a ∧
        a.maxSockets = 30 ∧ a.maxSockets = defaultMaxQueueSize ∧
        a.timeout = 2000 ∧ 2000 ≤ a.timeout ∧ a.timeout ≤ 5000) := by
  constructor
  · intro h
    simp [HTTPSTransport.construct, h]
  · intro h
    refine ⟨{ keepAlive := false, maxSockets := 30, timeout := 2000 }, ?_, rfl, rfl, rfl,
      le_refl _, by norm_num⟩
    simp [HTTPSTransport.construct, h]

/-- C3 witnessed: a concrete proxy configuration yields its proxy agent, and a
concrete proxyless configuration yields the bounded https agent. -/
theorem C3_agent_configuration_witness :
    (HTTPSTransport.construct withProxyOpts).client =
      ClientAgent.proxyAgent "http://proxy.local:8080" ∧
    (∃ a : AgentOptions,
      (HTTPSTransport.construct noProxyOpts).client = ClientAgent.httpsAgent a ∧
      a.maxSockets = 30 ∧ a.maxSockets = defaultMaxQueueSize ∧
      a.timeout = 2000 ∧ 2000 ≤ a.timeout ∧ a.timeout ≤ 5000) :=
  ⟨(C3_agent_configuration withProxyOpts "http://proxy.local:8080").1 (by decide),
   (C3_agent_configuration noProxyOpts "unused").2 (by decide)⟩

/-- C4: `sendEvent` delivers over the https module exactly the wire request
`eventToSentryRequest(event, this._api)` and returns that delivery's result;
`sendSession` does the same with `sessionToSentryRequest(session, this._api)`. -/
theorem C4_delivers_exact_wire_request (opts : TransportOptions) (e : Event) (s : Session) :
    sendEvent (HTTPSTransport.construct opts) e =
      Except.ok (sendWithModule HttpsModule.https
        (eventToSentryRequest e (HTTPSTransport.construct opts).api) (SentryItem.event e)) ∧
    sendSession (HTTPSTransport.construct opts) s =
      Except.ok (sendWithModule HttpsModule.https
        (sessionToSentryRequest s (HTTPSTransport.construct opts).api) (SentryItem.session s)) :=
  ⟨rfl, rfl⟩

/-- C5: the claim states a missing network module is raised at construction
time and never deferred until a send is attempted.  It is deferred: the
`No module available` error is produced by `sendEvent` itself on a transport
state whose module is unset. -/
theorem C5_counterexample : ¬ missingModuleNeverRaisedAtSend := by
  intro h
  exact h moduleLessState sampleEvent rfl

/-- C5 (amended): the missing-module check is deferred to send time - on a
state with no module, `sendEvent` and `sendSession` throw the
`No module available` SentryError - while the constructor itself never raises
it, because it always assigns the https module, making the send-time throw
unreachable for constructed instances. -/
theorem C5_missing_module_deferred (t : TransportState) (e : Event) (s : Session)
    (opts : TransportOptions) (h : t.module = none) :
    sendEvent t e = Except.error { message := "No module available in HTTPSTransport" } ∧
    sendSession t s = Except.error { message := "No module available in HTTPTransport" } ∧
    (HTTPSTransport.construct opts).module = some HttpsModule.https := by
  refine ⟨?_, ?_, rfl⟩
  · simp [sendEvent, h]
  · simp [sendSession, h]

/-- C5 (amended) witnessed on a concrete module-less state. -/
theorem C5_missing_module_deferred_witness :
    sendEvent moduleLessState sampleEvent =
      Except.error { message := "No module available in HTTPSTransport" } ∧
    sendSession moduleLessState sampleSession =
      Except.error { message := "No module available in HTTPTransport" } ∧
    (HTTPSTransport.construct noProxyOpts).module = some HttpsModule.https :=
  C5_missing_module_deferred moduleLessState sampleEvent sampleSession noProxyOpts rfl

/-- C6: the wrapped request handler propagates exactly the original handler's
outcome - the caller observes the application's own exception or none at all,
never one raised by the telemetry calls - and on the error path it captures
the exception and flushes with a 2000 ms timeout before rethrowing. -/
theorem C6_wrapper_rethrows_original (origHandler : RequestHandler)
    (req : NextApiRequest) (res : NextApiResponse) :
    (makeWrappedRequestHandler origHandler req res).1 = origHandler req res ∧
    (makeWrappedRequestHandler origHandler req res).2 =
      (match origHandler req res with
       | Except.ok _ => []
       | Except.error err => [TelemetryCall.captureException err, TelemetryCall.flush 2000]) := by
  cases h : origHandler req res with
  | ok u => simp [makeWrappedRequestHandler, h]
  | error err => simp [makeWrappedRequestHandler, h]

/-- C7: starting from a fresh stack (one layer, empty scope), every sequence
of hub operations leaves every layer's scope non-null. -/
theorem C7_layer_scope_never_null (client : Option Client) (ops : List HubOp) :
    ((ops.foldl applyOp (initialStack client)).all fun l => l.scope.isSome) = true := by
  rw [List.all_eq_true]
  exact foldl_applyOp_preserves ops (initialStack client)
    (by intro l hl; simp only [initialStack, List.mem_singleton] at hl; simp [hl])

/-- C8: for every entry property (awaited first when it is a function) whose
value at the injection point (`pages/_document` on the server, `main`
otherwise) has a supported shape, `injectSentry` returns an object in which
the sentry config file is prepended ahead of the original entry points with
their order (and any object-shape config fields) preserved, every other key
except `main.js` is unchanged, and no `main.js` key remains. -/
theorem C8_injectSentry_prepends (ep : EntryProperty) (isServer : Bool)
    (v : EntryPointValue)
    (h : jsGet (resolveEntry ep) (injectionPoint isServer) = some v) :
    ∃ result v',
      injectSentry ep isServer = Except.ok result ∧
      jsGet result (injectionPoint isServer) = some v' ∧
      entryPoints v' = injectee isServer :: entryPoints v ∧
      restOf v' = restOf v ∧
      (∀ k, k ≠ injectionPoint isServer → k ≠ "main.js" →
        jsGet result k = jsGet (resolveEntry ep) k) ∧
      jsGet result "main.js" = none := by
  refine ⟨assignAndStripMainJs (resolveEntry ep) (injectionPoint isServer)
      (injectedValue (injectee isServer) v),
    injectedValue (injectee isServer) v,
    injectSentry_eq ep isServer v h,
    assignStrip_get_ip _ _ _ (injectionPoint_ne_mainjs isServer),
    entryPoints_injectedValue _ _,
    restOf_injectedValue _ _,
    fun k hk1 hk2 => assignStrip_get_other _ _ _ k hk1 hk2,
    assignStrip_mainjs_removed _ _ _⟩

/-- C8 witnessed on a concrete client-side entry object with a string `main`
entry, an extra key, and a stale `main.js` key. -/
theorem C8_injectSentry_prepends_witness :
    jsGet (resolveEntry sampleEntry) (injectionPoint false) =
      some (EntryPointValue.str "./index.js") ∧
    (∃ result v',
      injectSentry sampleEntry false = Except.ok result ∧
      jsGet result (injectionPoint false) = some v' ∧
      entryPoints v' = injectee false :: entryPoints (EntryPointValue.str "./index.js") ∧
      restOf v' = restOf (EntryPointValue.str "./index.js") ∧
      (∀ k, k ≠ injectionPoint false → k ≠ "main.js" →
        jsGet result k = jsGet (resolveEntry sampleEntry) k) ∧
      jsGet result "main.js" = none) :=
  ⟨by decide,
   C8_injectSentry_prepends sampleEntry false (EntryPointValue.str "./index.js") (by decide)⟩

/-- C9: `withSentryConfig` computes its override list by mapping every default
webpack plugin option key (plus `dryrun`) to an `in`-test against the provided
keys array, so the list always has length 11 and the override warning fires on
every call, however few options are provided. -/
theorem C9_override_warning_always_fires (providedKeys : List String) :
    (webpackPluginOptionOverrides providedKeys).length = 11 ∧
    withSentryConfigWarnsOverride providedKeys = true := by
  have h : (webpackPluginOptionOverrides providedKeys).length = 11 := by
    simp [webpackPluginOptionOverrides, defaultWebpackPluginOptionKeys]
  exact ⟨h, by simp [withSentryConfigWarnsOverride, h]⟩

/-- C10: when the compiled route module's default export is not a function,
`load` returns the raw input string unchanged, emitting only the console
warning that it could not wrap the resource. -/
theorem C10_load_returns_raw_input (compile : String → ModuleExport)
    (ctx : LoaderContext) (rawInput : String) (options : LoaderOptions)
    (hopt : getOptions ctx.loaders = some options)
    (hcompile : compile (replaceFirst rawInput "@sentry/nextjs" options.sdkPath) =
      ModuleExport.nonFunction) :
    load compile ctx rawInput =
      Except.ok (rawInput,
        ["[Sentry] Could not wrap " ++ ctx.resource ++
          " for error handling. Default export is not a function."]) := by
  simp [load, hopt, hcompile]

/-- C10 witnessed on a concrete loader context and route whose default export
is not a function. -/
theorem C10_load_returns_raw_input_witness :
    getOptions sampleLoaderCtx.loaders =
      some { sdkPath := "/app/node_modules/@sentry/nextjs" } ∧
    load (fun _ => ModuleExport.nonFunction) sampleLoaderCtx "export default 3;" =
      Except.ok ("export default 3;",
        ["[Sentry] Could not wrap " ++ sampleLoaderCtx.resource ++
          " for error handling. Default export is not a function."]) :=
  ⟨by decide,
   C10_load_returns_raw_input (fun _ => ModuleExport.nonFunction) sampleLoaderCtx
     "export default 3;" { sdkPath := "/app/node_modules/@sentry/nextjs" } (by decide) rfl⟩

end Sentry
